import Mathlib

/-
Shallow embedding of the subscription core of the cnats client
(src/src/sub.c).  Pointers to messages are modelled as natural-number
node identifiers (distinct C nodes have distinct addresses; pointer
equality on queue nodes is identifier equality under the Nodup
well-formedness condition below).  Function pointers (the message
callback) and object pointers (the signal timer) are modelled by
booleans recording whether they are non-NULL.  Calls into collaborators
(condition broadcast, timer stop/reset, connection retain/release,
natsConn_removeSubscription) are recorded as boolean outputs of each
operation.  The uint64_t counter delivered is a Nat reduced mod 2^64 at
each increment.
-/

namespace CNats

/-- Status codes surfaced by the subscription core (a subset of the
natsStatus enumeration that sub.c can produce). -/
inductive NatsStatus where
  | OK
  | INVALID_ARG
  | NO_MEMORY
  | CONNECTION_CLOSED
  | INVALID_SUBSCRIPTION
  | MAX_DELIVERED_MSGS
  | ILLEGAL_STATE
  | SLOW_CONSUMER
  | TIMEOUT
deriving DecidableEq, Repr

/-- The msgList field of natsSubscription: a singly linked FIFO.
list is the chain of nodes reachable from head (in order), tail is
the tail pointer (none = NULL), count the int counter. -/
structure MsgList where
  list : List Nat
  tail : Option Nat
  count : Nat
deriving DecidableEq, Repr

/-- A natsSubscription.  The mutex and condition variable are implicit
(operations are modelled as atomic steps on this state); msgCb and
signalTimer record whether the corresponding pointer is non-NULL. -/
structure Subscription where
  subject : String
  queue : Option String
  refs : Int
  msgList : MsgList
  delivered : Nat
  max : Nat
  pendingMax : Int
  signalLimit : Int
  noDelay : Bool
  inWait : Nat
  slowConsumer : Bool
  closed : Bool
  connClosed : Bool
  msgCb : Bool
  signalTimer : Bool
  signalTimerInterval : Int
  signalFailCount : Nat
deriving DecidableEq, Repr

/-- Well-formedness of the linked queue: the counter matches the chain
length, the tail pointer designates the last reachable node, and node
identifiers are distinct (distinct C nodes have distinct addresses). -/
def MsgList.wellFormed (q : MsgList) : Prop :=
  q.count = q.list.length ∧ q.tail = q.list.getLast? ∧ q.list.Nodup

instance (q : MsgList) : Decidable q.wellFormed := by
  unfold MsgList.wellFormed
  infer_instance

/-- The spec invariant: tail == NULL iff count == 0. -/
def MsgList.tailCountInv (q : MsgList) : Prop :=
  q.tail = none ↔ q.count = 0

instance (q : MsgList) : Decidable q.tailCountInv := by
  unfold MsgList.tailCountInv
  infer_instance

/-- The drain loop of _freeSubscription: while ((m = head) != NULL)
head = m->next; destroy m.  Only head advances; tail and count are not
touched by the loop. -/
def freeMsgs : List Nat → List Nat
  | [] => []
  | _ :: rest => freeMsgs rest

/-- Result of _freeSubscription (destruction of the subscription). -/
structure FreeResult where
  msgList : MsgList
  timerDestroyed : Bool
  connReleased : Bool
deriving DecidableEq, Repr

/-- Embeds _freeSubscription: drains the message list, frees subject and
queue, destroys the timer and thread, releases the connection. -/
def freeSubscription (sub : Subscription) : FreeResult :=
  { msgList := { sub.msgList with list := freeMsgs sub.msgList.list },
    timerDestroyed := sub.signalTimer,
    connReleased := true }

/-- Result of natsSub_release: the surviving subscription (none if it
was freed) and what destruction did. -/
structure ReleaseResult where
  sub : Option Subscription
  freed : Bool
  freeResult : Option FreeResult
deriving DecidableEq, Repr

/-- Embeds natsSub_release: refs is decremented under the lock and the
subscription is destroyed exactly when it reaches 0. -/
def natsSub_release (sub : Subscription) : ReleaseResult :=
  let refs := sub.refs - 1
  if refs = 0 then
    { sub := none, freed := true,
      freeResult := some (freeSubscription { sub with refs := refs }) }
  else
    { sub := some { sub with refs := refs }, freed := false, freeResult := none }

/-- Embeds natsSub_retain. -/
def natsSub_retain (sub : Subscription) : Subscription :=
  { sub with refs := sub.refs + 1 }

/-- Result of one iteration of the delivery worker loop
(natsSub_deliverMsgs), taken at the point where the condition wait has
ended (the queue is observed as is). -/
structure DeliverStep where
  sub : Subscription
  popped : Option Nat
  handlerInvoked : Bool
  removeSubCalled : Bool
  exitLoop : Bool
deriving DecidableEq, Repr

/-- Embeds one iteration of the loop of natsSub_deliverMsgs, after the
inner condition-wait: check closed (exit), check msg == NULL (continue),
otherwise increment delivered, pop the head, snapshot max, release the
lock, invoke the handler iff max == 0 or delivered <= max, and call
natsConn_removeSubscription and exit iff max > 0 and delivered >= max. -/
def natsSub_deliverIter (sub : Subscription) : DeliverStep :=
  if sub.closed then
    { sub := sub, popped := none, handlerInvoked := false,
      removeSubCalled := false, exitLoop := true }
  else
    match sub.msgList.list with
    | [] =>
        { sub := sub, popped := none, handlerInvoked := false,
          removeSubCalled := false, exitLoop := false }
    | msg :: rest =>
        let delivered := (sub.delivered + 1) % 2 ^ 64
        let q : MsgList :=
          { list := rest,
            tail := if sub.msgList.tail = some msg then none else sub.msgList.tail,
            count := sub.msgList.count - 1 }
        let maxv := sub.max
        { sub := { sub with delivered := delivered, msgList := q },
          popped := some msg,
          handlerInvoked := decide (maxv = 0 ∨ delivered ≤ maxv),
          removeSubCalled := decide (0 < maxv ∧ maxv ≤ delivered),
          exitLoop := decide (0 < maxv ∧ maxv ≤ delivered) }

/-- The guard under which the delivery worker blocks on the condition:
while (msgList.count == 0 && !closed). -/
def deliverWaitGuard (sub : Subscription) : Prop :=
  sub.msgList.count = 0 ∧ sub.closed = false

instance (sub : Subscription) : Decidable (deliverWaitGuard sub) := by
  unfold deliverWaitGuard
  infer_instance

/-- Result of natsSub_close. -/
structure CloseResult where
  sub : Subscription
  timerStopCalled : Bool
  broadcastCalled : Bool
deriving DecidableEq, Repr

/-- Embeds natsSub_close: stop the signal timer when present, set the
terminal closed flag and connClosed, broadcast the condition. -/
def natsSub_close (sub : Subscription) (connectionClosed : Bool) : CloseResult :=
  { sub := { sub with closed := true, connClosed := connectionClosed },
    timerStopCalled := sub.signalTimer,
    broadcastCalled := true }

/-- Result of the signal-timer callback _signalMsgAvailable. -/
structure SignalResult where
  sub : Subscription
  returnedEarly : Bool
  blockingLockUsed : Bool
  timerResetCalled : Bool
  broadcastCalled : Bool
deriving DecidableEq, Repr

/-- The body of _signalMsgAvailable once the mutex is held: an empty
queue resets signalTimerInterval to 10000 and reschedules the timer (no
signal); otherwise the condition is broadcast iff inWait > 0. -/
def signalMsgAvailableBody (sub : Subscription) (blocking : Bool) : SignalResult :=
  if sub.msgList.count = 0 then
    { sub := { sub with signalTimerInterval := 10000 },
      returnedEarly := false, blockingLockUsed := blocking,
      timerResetCalled := true, broadcastCalled := false }
  else if 0 < sub.inWait then
    { sub := sub, returnedEarly := false, blockingLockUsed := blocking,
      timerResetCalled := false, broadcastCalled := true }
  else
    { sub := sub, returnedEarly := false, blockingLockUsed := blocking,
      timerResetCalled := false, broadcastCalled := false }

/-- Embeds _signalMsgAvailable; tryLockOk is the result of the
non-blocking natsMutex_TryLock attempt.  On failure signalFailCount is
incremented; when it reaches 10 it is reset and the lock is acquired
blockingly, otherwise the callback returns. -/
def signalMsgAvailable (sub : Subscription) (tryLockOk : Bool) : SignalResult :=
  if tryLockOk then
    signalMsgAvailableBody sub false
  else
    let c := sub.signalFailCount + 1
    if c = 10 then
      signalMsgAvailableBody { sub with signalFailCount := 0 } true
    else
      { sub := { sub with signalFailCount := c },
        returnedEarly := true, blockingLockUsed := false,
        timerResetCalled := false, broadcastCalled := false }

/-- Embeds _signalTimerStopped, the timer's stop callback: it releases
the timer's subscription reference. -/
def signalTimerStopped (sub : Subscription) : ReleaseResult :=
  natsSub_release sub

/-- Modelled from the spec: actions the other actors (the connection
reader, a closer) can take on the subscription while a consumer is
blocked in a condition wait.  The enqueue operation itself lives in the
connection code, outside this repository's sources; per spec section 4.6
it is refused when closed, sets slowConsumer and drops the message at
capacity, and otherwise appends at tail. -/
inductive EnvAction where
  | enqueue (m : Nat)
  | closeSub (connectionClosed : Bool)
deriving DecidableEq, Repr

/-- Modelled from the spec: apply one environment action (see EnvAction). -/
def applyEnv (sub : Subscription) (a : EnvAction) : Subscription :=
  match a with
  | .enqueue m =>
      if sub.closed then sub
      else if sub.pendingMax ≤ (sub.msgList.count : Int) then
        { sub with slowConsumer := true }
      else
        { sub with msgList :=
          { list := sub.msgList.list ++ [m], tail := some m,
            count := sub.msgList.count + 1 } }
  | .closeSub b => (natsSub_close sub b).sub

/-- Apply a batch of environment actions in order. -/
def applyEnvList (sub : Subscription) (as : List EnvAction) : Subscription :=
  as.foldl applyEnv sub

/-- What one natsCondition_AbsoluteTimedWait call amounts to for the
waiter: the actions other threads performed while the mutex was
released inside the wait, and whether the wait returned NATS_TIMEOUT
(else NATS_OK). -/
structure WaitEvent where
  actions : List EnvAction
  timedOut : Bool
deriving DecidableEq, Repr

/-- Embeds the wait loop of natsSubscription_NextMsg for timeout > 0:
while (count == 0 && s != NATS_TIMEOUT && !closed) \x7b if (target == 0)
target = nats_Now() + timeout; s = wait(cond, mu, target) \x7d.  now is
the value nats_Now() returns, nowCalls counts its calls, targets
records the deadline passed to each wait.  Returns none when the event
list is exhausted while the loop would still be waiting. -/
def nextMsgWaitLoop (timeout now : Int) (events : List WaitEvent) (target : Int)
    (nowCalls : Nat) (targets : List Int) (s : NatsStatus) (sub : Subscription) :
    Option (Subscription × NatsStatus × Nat × List Int) :=
  if sub.msgList.count = 0 ∧ s ≠ .TIMEOUT ∧ sub.closed = false then
    match events with
    | [] => none
    | e :: rest =>
        nextMsgWaitLoop timeout now rest
          (if target = 0 then now + timeout else target)
          (if target = 0 then nowCalls + 1 else nowCalls)
          (targets ++ [if target = 0 then now + timeout else target])
          (if e.timedOut then .TIMEOUT else .OK) (applyEnvList sub e.actions)
  else
    some (sub, s, nowCalls, targets)

/-- Embeds the wait policy of natsSubscription_NextMsg: for timeout > 0,
increment inWait, run the wait loop, decrement inWait, and replace the
status by INVALID_SUBSCRIPTION when the subscription is closed after the
wait; for timeout <= 0, do not wait and fail with TIMEOUT exactly when
the queue is empty. -/
def nextMsgWaitPhase (sub : Subscription) (timeout now : Int)
    (events : List WaitEvent) :
    Option (Subscription × NatsStatus × Nat × List Int) :=
  if 0 < timeout then
    match nextMsgWaitLoop timeout now events 0 0 [] .OK
        { sub with inWait := sub.inWait + 1 } with
    | none => none
    | some (s1, st, nc, ts) =>
        let s2 := { s1 with inWait := s1.inWait - 1 }
        some (s2, if s2.closed then .INVALID_SUBSCRIPTION else st, nc, ts)
  else
    some (sub, if sub.msgList.count = 0 then .TIMEOUT else .OK, 0, [])

/-- Result of natsSubscription_NextMsg.  removeSubCalled records whether
natsConn_removeSubscription is invoked after the mutex is released;
nowCalls and waitDeadlines instrument the deadline computation. -/
structure NextMsgResult where
  sub : Subscription
  status : NatsStatus
  nextMsg : Option Nat
  removeSubCalled : Bool
  nowCalls : Nat
  waitDeadlines : List Int
deriving DecidableEq, Repr

/-- Embeds the first if (s == NATS_OK) block after the wait in
natsSubscription_NextMsg: on NATS_OK increment delivered; with max > 0,
delivered > max fails with MAX_DELIVERED_MSGS and delivered == max
marks the subscription for post-unlock removal.  Returns the updated
subscription, the status, and the removeSub flag. -/
def nextMsgAccount (s1 : Subscription) (st : NatsStatus) :
    Subscription × NatsStatus × Bool :=
  if st = .OK then
    if 0 < s1.max then
      if s1.max < (s1.delivered + 1) % 2 ^ 64 then
        ({ s1 with delivered := (s1.delivered + 1) % 2 ^ 64 },
          NatsStatus.MAX_DELIVERED_MSGS, false)
      else if (s1.delivered + 1) % 2 ^ 64 = s1.max then
        ({ s1 with delivered := (s1.delivered + 1) % 2 ^ 64 },
          NatsStatus.OK, true)
      else
        ({ s1 with delivered := (s1.delivered + 1) % 2 ^ 64 },
          NatsStatus.OK, false)
    else
      ({ s1 with delivered := (s1.delivered + 1) % 2 ^ 64 },
        NatsStatus.OK, false)
  else (s1, st, false)

/-- Embeds the second if (s == NATS_OK) block after the wait in
natsSubscription_NextMsg: on NATS_OK pop the head message (tail cleared
when it pointed at the popped node, count decremented, next cleared)
and hand it to the caller.  The empty-list branch of the match is
unreachable from well-formed states (the C code would dereference NULL
there). -/
def nextMsgPop (s2 : Subscription) (st2 : NatsStatus) (removeSub : Bool)
    (nc : Nat) (ts : List Int) : NextMsgResult :=
  if st2 = .OK then
    match s2.msgList.list with
    | [] =>
        { sub := s2, status := st2, nextMsg := none,
          removeSubCalled := removeSub, nowCalls := nc, waitDeadlines := ts }
    | msg :: rest =>
        { sub := { s2 with msgList :=
            { list := rest,
              tail := if s2.msgList.tail = some msg then none else s2.msgList.tail,
              count := s2.msgList.count - 1 } },
          status := st2, nextMsg := some msg,
          removeSubCalled := removeSub, nowCalls := nc, waitDeadlines := ts }
  else
    { sub := s2, status := st2, nextMsg := none,
      removeSubCalled := removeSub, nowCalls := nc, waitDeadlines := ts }

/-- Embeds the tail of natsSubscription_NextMsg after the wait: the
delivered/max accounting followed by the pop. -/
def nextMsgFinish (s1 : Subscription) (st : NatsStatus) (nc : Nat)
    (ts : List Int) : NextMsgResult :=
  nextMsgPop (nextMsgAccount s1 st).1 (nextMsgAccount s1 st).2.1
    (nextMsgAccount s1 st).2.2 nc ts

/-- Embeds natsSubscription_NextMsg for a non-NULL subscription and
output pointer (the NULL-argument INVALID_ARG branch is outside this
model): the four precondition checks in source order, then the wait
phase, then the delivered/max accounting and the pop. -/
def natsSubscription_NextMsg (sub : Subscription) (timeout now : Int)
    (events : List WaitEvent) : Option NextMsgResult :=
  if sub.connClosed then
    some { sub := sub, status := .CONNECTION_CLOSED, nextMsg := none,
           removeSubCalled := false, nowCalls := 0, waitDeadlines := [] }
  else if sub.closed then
    some { sub := sub,
           status := if 0 < sub.max ∧ sub.max ≤ sub.delivered
                     then .MAX_DELIVERED_MSGS else .INVALID_SUBSCRIPTION,
           nextMsg := none, removeSubCalled := false, nowCalls := 0,
           waitDeadlines := [] }
  else if sub.msgCb then
    some { sub := sub, status := .ILLEGAL_STATE, nextMsg := none,
           removeSubCalled := false, nowCalls := 0, waitDeadlines := [] }
  else if sub.slowConsumer then
    some { sub := { sub with slowConsumer := false }, status := .SLOW_CONSUMER,
           nextMsg := none, removeSubCalled := false, nowCalls := 0,
           waitDeadlines := [] }
  else
    match nextMsgWaitPhase sub timeout now events with
    | none => none
    | some (s1, st, nc, ts) => some (nextMsgFinish s1 st nc ts)

/-- Result of natsSubscription_NoDeliveryDelay. -/
structure NoDelayResult where
  sub : Subscription
  status : NatsStatus
  timerStopCalled : Bool
deriving DecidableEq, Repr

/-- Embeds natsSubscription_NoDeliveryDelay for a non-NULL subscription:
if noDelay is not yet set, set it and stop the signal timer; always
return NATS_OK. -/
def natsSubscription_NoDeliveryDelay (sub : Subscription) : NoDelayResult :=
  if sub.noDelay = false then
    { sub := { sub with noDelay := true }, status := .OK, timerStopCalled := true }
  else
    { sub := sub, status := .OK, timerStopCalled := false }

/-- Which of the fallible steps of natsSub_create succeed (calloc,
mutex create, the two strdups, condition create, timer create, thread
create).  Primitive-creation failures surface as NO_MEMORY. -/
structure CreateEnv where
  callocOk : Bool
  mutexOk : Bool
  strdupSubjectOk : Bool
  strdupQueueOk : Bool
  condOk : Bool
  timerOk : Bool
  threadOk : Bool
deriving DecidableEq, Repr

/-- Result of natsSub_create. -/
structure CreateResult where
  status : NatsStatus
  sub : Option Subscription
  freed : Bool
  connRetained : Bool
  connReleased : Bool
deriving DecidableEq, Repr

/-- Embeds natsSub_create: allocate (refs starts at 1 for the creator),
retain the connection, copy subject and optional queue group, create the
condition; when not noDelay retain one reference for the signal timer
before creating it and release it on creation failure; when a handler is
given retain one reference for the delivery worker before starting it
and release it on start failure; on overall failure release through
natsSub_release.  signalLimit is (int)(pendingMax * 0.75), exact in
double precision for int-range pendingMax, i.e. pendingMax * 3 / 4
truncated toward zero. -/
def natsSub_create (env : CreateEnv) (maxPendingMsgs : Int) (subj : String)
    (queueGroup : Option String) (cb noDelay : Bool) : CreateResult :=
  if env.callocOk = false then
    { status := .NO_MEMORY, sub := none, freed := true,
      connRetained := false, connReleased := false }
  else if env.mutexOk = false then
    { status := .NO_MEMORY, sub := none, freed := true,
      connRetained := false, connReleased := false }
  else
    let sub0 : Subscription :=
      { subject := subj, queue := none, refs := 1,
        msgList := { list := [], tail := none, count := 0 },
        delivered := 0, max := 0, pendingMax := maxPendingMsgs,
        signalLimit := maxPendingMsgs * 3 / 4,
        noDelay := noDelay, inWait := 0, slowConsumer := false,
        closed := false, connClosed := false, msgCb := cb,
        signalTimer := false, signalTimerInterval := 0, signalFailCount := 0 }
    let s1 : NatsStatus := if env.strdupSubjectOk then .OK else .NO_MEMORY
    let hasQueue : Bool :=
      match queueGroup with
      | some q => q.length != 0
      | none => false
    let sub1 :=
      { sub0 with queue :=
          if s1 = .OK ∧ hasQueue = true ∧ env.strdupQueueOk = true then queueGroup
          else none }
    let s2 :=
      if s1 = .OK ∧ hasQueue = true ∧ env.strdupQueueOk = false then
        NatsStatus.NO_MEMORY
      else s1
    let s3 := if s2 = .OK ∧ env.condOk = false then NatsStatus.NO_MEMORY else s2
    let timerPhase : Subscription × NatsStatus :=
      if s3 = .OK ∧ noDelay = false then
        let subT := { sub1 with signalTimerInterval := 10000, refs := sub1.refs + 1 }
        if env.timerOk then ({ subT with signalTimer := true }, NatsStatus.OK)
        else ({ subT with refs := subT.refs - 1 }, NatsStatus.NO_MEMORY)
      else (sub1, s3)
    let threadPhase : Subscription × NatsStatus :=
      if timerPhase.2 = .OK ∧ cb = true then
        let subW := { timerPhase.1 with refs := timerPhase.1.refs + 1 }
        if env.threadOk then (subW, NatsStatus.OK)
        else ({ subW with refs := subW.refs - 1 }, NatsStatus.NO_MEMORY)
      else timerPhase
    if threadPhase.2 = .OK then
      { status := .OK, sub := some threadPhase.1, freed := false,
        connRetained := true, connReleased := false }
    else
      let rel := natsSub_release threadPhase.1
      { status := threadPhase.2, sub := rel.sub, freed := rel.freed,
        connRetained := true,
        connReleased :=
          match rel.freeResult with
          | some f => f.connReleased
          | none => false }

/-- Runs the delivery worker loop: each element of events is what the
environment did while the worker was blocked in its condition wait for
that iteration.  Returns the state at loop exit and whether
natsConn_removeSubscription was called, or none when the events are
exhausted with the worker still looping. -/
def deliverRun : List (List EnvAction) → Subscription → Option (Subscription × Bool)
  | [], _ => none
  | acts :: rest, sub =>
      let st := natsSub_deliverIter (applyEnvList sub acts)
      if st.exitLoop then some (st.sub, st.removeSubCalled)
      else deliverRun rest st.sub

/-- Result of a full run of natsSub_deliverMsgs. -/
structure WorkerRunResult where
  release : ReleaseResult
  removeSubCalled : Bool
deriving DecidableEq, Repr

/-- Embeds natsSub_deliverMsgs end to end: run the loop, then release
the worker's subscription reference on loop exit (the worker's terminal
path). -/
def natsSub_deliverMsgsRun (events : List (List EnvAction))
    (sub : Subscription) : Option WorkerRunResult :=
  match deliverRun events sub with
  | none => none
  | some (s, rem) => some { release := natsSub_release s, removeSubCalled := rem }

/-- A sample synchronous subscription used by the witnesses: one queued
message (node 7), no handler, active timer. -/
def sampleSub : Subscription :=
  { subject := "x", queue := none, refs := 1,
    msgList := { list := [7], tail := some 7, count := 1 },
    delivered := 0, max := 0, pendingMax := 65536, signalLimit := 49152,
    noDelay := false, inWait := 0, slowConsumer := false,
    closed := false, connClosed := false, msgCb := false,
    signalTimer := true, signalTimerInterval := 10000, signalFailCount := 0 }

/-
Helper lemmas (shared between the claim theorems).
-/

/-- The drain loop empties the head chain. -/
theorem freeMsgs_eq_nil (l : List Nat) : freeMsgs l = [] := by
  induction l with
  | nil => rfl
  | cons a t ih => simpa [freeMsgs] using ih

/-- Popping the head of a well-formed queue yields a well-formed queue. -/
theorem pop_wellFormed (q : MsgList) (m : Nat) (rest : List Nat)
    (hwf : q.wellFormed) (hl : q.list = m :: rest) :
    MsgList.wellFormed
      { list := rest,
        tail := if q.tail = some m then none else q.tail,
        count := q.count - 1 } := by
  obtain ⟨hc, ht, hnd⟩ := hwf
  rw [hl] at hc ht hnd
  cases rest with
  | nil =>
      have htail : q.tail = some m := by simpa using ht
      refine ⟨?_, ?_, ?_⟩
      · simp [hc]
      · simp [htail]
      · simp
  | cons r rs =>
      have ht2 : q.tail = (r :: rs).getLast? := by
        rw [ht, List.getLast?_cons_cons]
      have hne : q.tail ≠ some m := by
        intro hcontra
        rw [ht2] at hcontra
        have hmemL : m ∈ (r :: rs).getLast? := Option.mem_def.mpr hcontra
        obtain ⟨hne2, heq⟩ := List.mem_getLast?_eq_getLast hmemL
        have hmem : m ∈ r :: rs := heq ▸ List.getLast_mem hne2
        exact (List.nodup_cons.mp hnd).1 hmem
      refine ⟨?_, ?_, ?_⟩
      · simp [hc]
      · rw [if_neg hne, ht2]
      · exact (List.nodup_cons.mp hnd).2

/-- A well-formed queue satisfies the tail/count invariant. -/
theorem wellFormed_tailCountInv (q : MsgList) (h : q.wellFormed) :
    q.tailCountInv := by
  obtain ⟨hc, ht, -⟩ := h
  unfold MsgList.tailCountInv
  rw [hc, ht]
  simp [List.getLast?_eq_none_iff, List.length_eq_zero]

/-- The wait loop returns only when its guard has failed: the queue is
non-empty, or the last wait timed out, or the subscription is closed. -/
theorem nextMsgWaitLoop_exit (timeout now : Int) (events : List WaitEvent)
    (target : Int) (nowCalls : Nat) (targets : List Int) (s : NatsStatus)
    (sub s1 : Subscription) (st : NatsStatus) (nc : Nat) (ts : List Int)
    (h : nextMsgWaitLoop timeout now events target nowCalls targets s sub =
      some (s1, st, nc, ts)) :
    ¬(s1.msgList.count = 0 ∧ st ≠ .TIMEOUT ∧ s1.closed = false) := by
  induction events generalizing target nowCalls targets s sub with
  | nil =>
      unfold nextMsgWaitLoop at h
      split at h
      · exact absurd h (by simp)
      · rename_i hguard
        simp only [Option.some.injEq, Prod.mk.injEq] at h
        obtain ⟨h1, h2, -, -⟩ := h
        rw [← h1, ← h2]
        exact hguard
  | cons e rest ih =>
      unfold nextMsgWaitLoop at h
      split at h
      · exact ih _ _ _ _ _ h
      · rename_i hguard
        simp only [Option.some.injEq, Prod.mk.injEq] at h
        obtain ⟨h1, h2, -, -⟩ := h
        rw [← h1, ← h2]
        exact hguard

/-- The status carried through the wait loop stays OK or TIMEOUT. -/
theorem nextMsgWaitLoop_status (timeout now : Int) (events : List WaitEvent)
    (target : Int) (nowCalls : Nat) (targets : List Int) (s : NatsStatus)
    (sub s1 : Subscription) (st : NatsStatus) (nc : Nat) (ts : List Int)
    (hs : s = .OK ∨ s = .TIMEOUT)
    (h : nextMsgWaitLoop timeout now events target nowCalls targets s sub =
      some (s1, st, nc, ts)) :
    st = .OK ∨ st = .TIMEOUT := by
  induction events generalizing target nowCalls targets s sub with
  | nil =>
      unfold nextMsgWaitLoop at h
      split at h
      · exact absurd h (by simp)
      · simp only [Option.some.injEq, Prod.mk.injEq] at h
        obtain ⟨-, h2, -, -⟩ := h
        rw [← h2]
        exact hs
  | cons e rest ih =>
      unfold nextMsgWaitLoop at h
      split at h
      · exact ih _ _ _ _ _ (by cases e.timedOut <;> simp) h
      · simp only [Option.some.injEq, Prod.mk.injEq] at h
        obtain ⟨-, h2, -, -⟩ := h
        rw [← h2]
        exact hs

/-- The wait loop computes the absolute deadline now + timeout at most
once and passes exactly that deadline to every wait. -/
theorem nextMsgWaitLoop_deadline (timeout now : Int) (events : List WaitEvent)
    (target : Int) (nowCalls : Nat) (targets : List Int) (s : NatsStatus)
    (sub s1 : Subscription) (st : NatsStatus) (nc : Nat) (ts : List Int)
    (hnz : now + timeout ≠ 0)
    (htarget : target = 0 ∨ target = now + timeout)
    (htargets : ∀ d ∈ targets, d = now + timeout)
    (hcount : nowCalls + (if target = 0 then 1 else 0) ≤ 1)
    (hzero : nowCalls = 0 → target = 0 ∧ targets = [])
    (h : nextMsgWaitLoop timeout now events target nowCalls targets s sub =
      some (s1, st, nc, ts)) :
    nc ≤ 1 ∧ (∀ d ∈ ts, d = now + timeout) ∧ (ts ≠ [] → nc = 1) := by
  induction events generalizing target nowCalls targets s sub with
  | nil =>
      unfold nextMsgWaitLoop at h
      split at h
      · exact absurd h (by simp)
      · simp only [Option.some.injEq, Prod.mk.injEq] at h
        obtain ⟨-, -, h3, h4⟩ := h
        rw [← h3, ← h4]
        refine ⟨?_, htargets, ?_⟩
        · split at hcount <;> omega
        · intro hts
          by_cases hn : nowCalls = 0
          · exact absurd (hzero hn).2 hts
          · split at hcount <;> omega
  | cons e rest ih =>
      unfold nextMsgWaitLoop at h
      split at h
      · by_cases h0 : target = 0
        · refine ih _ _ _ _ _ (Or.inr (by rw [if_pos h0])) ?_ ?_ ?_ h
          · intro d hd
            rcases List.mem_append.mp hd with hd1 | hd2
            · exact htargets d hd1
            · rw [List.mem_singleton] at hd2
              rw [hd2, if_pos h0]
          · simp only [if_pos h0] at hcount ⊢
            rw [if_neg hnz]
            omega
          · simp only [if_pos h0]
            intro hn
            exact absurd hn (by omega)
        · have h1 : target = now + timeout := htarget.resolve_left h0
          refine ih _ _ _ _ _ (Or.inr (by rw [if_neg h0]; exact h1)) ?_ ?_ ?_ h
          · intro d hd
            rcases List.mem_append.mp hd with hd1 | hd2
            · exact htargets d hd1
            · rw [List.mem_singleton] at hd2
              rw [hd2, if_neg h0]
              exact h1
          · simp only [if_neg h0] at hcount ⊢
            omega
          · simp only [if_neg h0]
            intro hn
            exact absurd (hzero hn).1 h0
      · simp only [Option.some.injEq, Prod.mk.injEq] at h
        obtain ⟨-, -, h3, h4⟩ := h
        rw [← h3, ← h4]
        refine ⟨?_, htargets, ?_⟩
        · split at hcount <;> omega
        · intro hts
          by_cases hn : nowCalls = 0
          · exact absurd (hzero hn).2 hts
          · split at hcount <;> omega

/-- The status produced by the wait phase is OK, TIMEOUT, or (closed
after the wait) INVALID_SUBSCRIPTION. -/
theorem nextMsgWaitPhase_status (sub : Subscription) (timeout now : Int)
    (events : List WaitEvent) (s1 : Subscription) (st : NatsStatus)
    (nc : Nat) (ts : List Int)
    (h : nextMsgWaitPhase sub timeout now events = some (s1, st, nc, ts)) :
    st = .OK ∨ st = .TIMEOUT ∨ st = .INVALID_SUBSCRIPTION := by
  unfold nextMsgWaitPhase at h
  split at h
  · cases hloop : nextMsgWaitLoop timeout now events 0 0 [] .OK
        { sub with inWait := sub.inWait + 1 } with
    | none => rw [hloop] at h; exact absurd h (by simp)
    | some out =>
        obtain ⟨s2, st0, nc0, ts0⟩ := out
        rw [hloop] at h
        simp only [Option.some.injEq, Prod.mk.injEq] at h
        obtain ⟨-, h2, -, -⟩ := h
        have hst0 := nextMsgWaitLoop_status timeout now events 0 0 [] .OK _ _ _ _ _
          (Or.inl rfl) hloop
        rw [← h2]
        split
        · exact Or.inr (Or.inr rfl)
        · rcases hst0 with h | h
          · exact Or.inl h
          · exact Or.inr (Or.inl h)
  · simp only [Option.some.injEq, Prod.mk.injEq] at h
    obtain ⟨-, h2, -, -⟩ := h
    rw [← h2]
    split
    · exact Or.inr (Or.inl rfl)
    · exact Or.inl rfl

/-- When the wait phase returns OK, the queue is non-empty and the
subscription is not closed. -/
theorem nextMsgWaitPhase_ok (sub : Subscription) (timeout now : Int)
    (events : List WaitEvent) (s1 : Subscription) (nc : Nat) (ts : List Int)
    (hcl : sub.closed = false)
    (h : nextMsgWaitPhase sub timeout now events = some (s1, .OK, nc, ts)) :
    s1.msgList.count ≠ 0 ∧ s1.closed = false := by
  unfold nextMsgWaitPhase at h
  split at h
  · cases hloop : nextMsgWaitLoop timeout now events 0 0 [] .OK
        { sub with inWait := sub.inWait + 1 } with
    | none => rw [hloop] at h; exact absurd h (by simp)
    | some out =>
        obtain ⟨s2, st0, nc0, ts0⟩ := out
        rw [hloop] at h
        simp only [Option.some.injEq, Prod.mk.injEq] at h
        obtain ⟨h1, h2, -, -⟩ := h
        have hexit := nextMsgWaitLoop_exit timeout now events 0 0 [] .OK _ _ _ _ _ hloop
        by_cases hc2 : s2.closed = true
        · rw [if_pos (by simpa using hc2)] at h2
          exact absurd h2 (by simp)
        · have hc2f : s2.closed = false := by simpa using hc2
          rw [if_neg (by simp [hc2f])] at h2
          rw [h2] at hexit
          have hcount : s2.msgList.count ≠ 0 := by
            intro hc0
            exact hexit ⟨hc0, by simp, hc2f⟩
          rw [← h1]
          exact ⟨hcount, hc2f⟩
  · simp only [Option.some.injEq, Prod.mk.injEq] at h
    obtain ⟨h1, h2, -, -⟩ := h
    rw [← h1]
    refine ⟨?_, hcl⟩
    intro hc0
    rw [if_pos hc0] at h2
    exact absurd h2 (by simp)

/-- The deadlines used by the wait phase: nats_Now is consulted at most
once and every wait uses the absolute deadline now + timeout. -/
theorem nextMsgWaitPhase_deadline (sub : Subscription) (timeout now : Int)
    (events : List WaitEvent) (s1 : Subscription) (st : NatsStatus)
    (nc : Nat) (ts : List Int)
    (hnz : now + timeout ≠ 0)
    (h : nextMsgWaitPhase sub timeout now events = some (s1, st, nc, ts)) :
    nc ≤ 1 ∧ (∀ d ∈ ts, d = now + timeout) ∧ (ts ≠ [] → nc = 1) := by
  unfold nextMsgWaitPhase at h
  split at h
  · cases hloop : nextMsgWaitLoop timeout now events 0 0 [] .OK
        { sub with inWait := sub.inWait + 1 } with
    | none => rw [hloop] at h; exact absurd h (by simp)
    | some out =>
        obtain ⟨s2, st0, nc0, ts0⟩ := out
        rw [hloop] at h
        simp only [Option.some.injEq, Prod.mk.injEq] at h
        obtain ⟨-, -, h3, h4⟩ := h
        have := nextMsgWaitLoop_deadline timeout now events 0 0 [] .OK _ _ _ _ _
          hnz (Or.inl rfl) (by simp) (by simp) (by simp) hloop
        rw [← h3, ← h4]
        exact this
  · simp only [Option.some.injEq, Prod.mk.injEq] at h
    obtain ⟨-, -, h3, h4⟩ := h
    rw [← h3, ← h4]
    simp

/-- The accounting step on a non-OK status is the identity. -/
theorem nextMsgAccount_not_ok (s1 : Subscription) (st : NatsStatus)
    (h : st ≠ .OK) : nextMsgAccount s1 st = (s1, st, false) := by
  simp [nextMsgAccount, h]

/-- The accounting step produces the incoming status or
MAX_DELIVERED_MSGS. -/
theorem nextMsgAccount_status (s1 : Subscription) (st : NatsStatus) :
    (nextMsgAccount s1 st).2.1 = st ∨
    (nextMsgAccount s1 st).2.1 = .MAX_DELIVERED_MSGS := by
  unfold nextMsgAccount
  split
  · split
    · split
      · simp_all
      · split <;> simp_all
    · simp_all
  · simp_all

/-- The pop step never changes the status it is given. -/
theorem nextMsgPop_status (s2 : Subscription) (st2 : NatsStatus)
    (removeSub : Bool) (nc : Nat) (ts : List Int) :
    (nextMsgPop s2 st2 removeSub nc ts).status = st2 := by
  unfold nextMsgPop
  split
  · cases hl : s2.msgList.list <;> simp [hl]
  · rfl

/-- The pop step on a non-OK status pops nothing. -/
theorem nextMsgPop_not_ok (s2 : Subscription) (st2 : NatsStatus)
    (removeSub : Bool) (nc : Nat) (ts : List Int) (h : st2 ≠ .OK) :
    nextMsgPop s2 st2 removeSub nc ts =
      { sub := s2, status := st2, nextMsg := none,
        removeSubCalled := removeSub, nowCalls := nc, waitDeadlines := ts } := by
  simp [nextMsgPop, h]

/-- nextMsgFinish on a non-OK wait status passes the status through,
pops nothing and marks no removal. -/
theorem nextMsgFinish_not_ok (s1 : Subscription) (st : NatsStatus)
    (nc : Nat) (ts : List Int) (h : st ≠ .OK) :
    nextMsgFinish s1 st nc ts =
      { sub := s1, status := st, nextMsg := none, removeSubCalled := false,
        nowCalls := nc, waitDeadlines := ts } := by
  unfold nextMsgFinish
  rw [nextMsgAccount_not_ok s1 st h]
  exact nextMsgPop_not_ok s1 st false nc ts h

/-- The status of nextMsgFinish is the incoming status or
MAX_DELIVERED_MSGS. -/
theorem nextMsgFinish_status (s1 : Subscription) (st : NatsStatus)
    (nc : Nat) (ts : List Int) :
    (nextMsgFinish s1 st nc ts).status = st ∨
    (nextMsgFinish s1 st nc ts).status = .MAX_DELIVERED_MSGS := by
  unfold nextMsgFinish
  rw [nextMsgPop_status]
  exact nextMsgAccount_status s1 st

/-- A call whose slow-consumer flag is clear never returns
SLOW_CONSUMER. -/
theorem nextMsg_not_slow (sub : Subscription) (h : sub.slowConsumer = false)
    (t n : Int) (ev : List WaitEvent) (r : NextMsgResult)
    (hr : natsSubscription_NextMsg sub t n ev = some r) :
    r.status ≠ .SLOW_CONSUMER := by
  unfold natsSubscription_NextMsg at hr
  split at hr
  · simp only [Option.some.injEq] at hr
    rw [← hr]
    simp
  · split at hr
    · simp only [Option.some.injEq] at hr
      rw [← hr]
      split <;> simp
    · split at hr
      · simp only [Option.some.injEq] at hr
        rw [← hr]
        simp
      · split at hr
        · rename_i hslow
          rw [h] at hslow
          exact absurd hslow (by simp)
        · cases hphase : nextMsgWaitPhase sub t n ev with
          | none => rw [hphase] at hr; exact absurd hr (by simp)
          | some out =>
              obtain ⟨s1, st, nc, ts⟩ := out
              rw [hphase] at hr
              simp only [Option.some.injEq] at hr
              have hst := nextMsgWaitPhase_status sub t n ev s1 st nc ts hphase
              have hfin := nextMsgFinish_status s1 st nc ts
              rw [← hr]
              rcases hfin with hf | hf <;> rw [hf]
              · rcases hst with h | h | h <;> simp [h]
              · simp

/-- The pop step passes the instrumentation fields through. -/
theorem nextMsgPop_meta (s2 : Subscription) (st2 : NatsStatus)
    (removeSub : Bool) (nc : Nat) (ts : List Int) :
    (nextMsgPop s2 st2 removeSub nc ts).nowCalls = nc ∧
    (nextMsgPop s2 st2 removeSub nc ts).waitDeadlines = ts := by
  unfold nextMsgPop
  split
  · cases hl : s2.msgList.list <;> simp [hl]
  · simp

/-
C2: NextMsg precondition checks.
-/

/-- C2: the NextMsg precondition checks happen in source order and each
surfaces its distinct error: connClosed fails with CONNECTION_CLOSED;
else closed fails with MAX_DELIVERED_MSGS when max > 0 and
delivered >= max and with INVALID_SUBSCRIPTION otherwise; else a
registered handler fails with ILLEGAL_STATE; else a set slowConsumer
flag is cleared and the call fails with SLOW_CONSUMER exactly once, so
a subsequent call proceeds past that check. -/
theorem nextMsg_precheck_order (sub : Subscription) (timeout now : Int)
    (events : List WaitEvent) :
    (sub.connClosed = true →
       ∃ r, natsSubscription_NextMsg sub timeout now events = some r ∧
         r.status = .CONNECTION_CLOSED ∧ r.sub = sub) ∧
    (sub.connClosed = false → sub.closed = true →
       0 < sub.max → sub.max ≤ sub.delivered →
       ∃ r, natsSubscription_NextMsg sub timeout now events = some r ∧
         r.status = .MAX_DELIVERED_MSGS) ∧
    (sub.connClosed = false → sub.closed = true →
       ¬(0 < sub.max ∧ sub.max ≤ sub.delivered) →
       ∃ r, natsSubscription_NextMsg sub timeout now events = some r ∧
         r.status = .INVALID_SUBSCRIPTION) ∧
    (sub.connClosed = false → sub.closed = false → sub.msgCb = true →
       ∃ r, natsSubscription_NextMsg sub timeout now events = some r ∧
         r.status = .ILLEGAL_STATE) ∧
    (sub.connClosed = false → sub.closed = false → sub.msgCb = false →
       sub.slowConsumer = true →
       ∃ r, natsSubscription_NextMsg sub timeout now events = some r ∧
         r.status = .SLOW_CONSUMER ∧
         r.sub = { sub with slowConsumer := false } ∧
         ∀ t2 n2 ev2 r2,
           natsSubscription_NextMsg r.sub t2 n2 ev2 = some r2 →
             r2.status ≠ .SLOW_CONSUMER) := by
  refine ⟨?_, ?_, ?_, ?_, ?_⟩
  · intro h1
    simp [natsSubscription_NextMsg, h1]
  · intro h1 h2 h3 h4
    refine ⟨{ sub := sub, status := .MAX_DELIVERED_MSGS, nextMsg := none,
              removeSubCalled := false, nowCalls := 0, waitDeadlines := [] },
            by simp [natsSubscription_NextMsg, h1, h2, h3, h4], rfl⟩
  · intro h1 h2 h3
    refine ⟨{ sub := sub, status := .INVALID_SUBSCRIPTION, nextMsg := none,
              removeSubCalled := false, nowCalls := 0, waitDeadlines := [] },
            by simp [natsSubscription_NextMsg, h1, h2, h3], rfl⟩
  · intro h1 h2 h3
    refine ⟨{ sub := sub, status := .ILLEGAL_STATE, nextMsg := none,
              removeSubCalled := false, nowCalls := 0, waitDeadlines := [] },
            by simp [natsSubscription_NextMsg, h1, h2, h3], rfl⟩
  · intro h1 h2 h3 h4
    refine ⟨{ sub := { sub with slowConsumer := false },
              status := .SLOW_CONSUMER, nextMsg := none,
              removeSubCalled := false, nowCalls := 0, waitDeadlines := [] },
            by simp [natsSubscription_NextMsg, h1, h2, h3, h4], rfl, rfl, ?_⟩
    intro t2 n2 ev2 r2 hr2
    exact nextMsg_not_slow _ rfl t2 n2 ev2 r2 hr2

/-- Witness for C2: a subscription with the slow-consumer flag set, on
which the flag is consumed exactly once. -/
theorem nextMsg_precheck_order_witness :
    ∃ r, natsSubscription_NextMsg { sampleSub with slowConsumer := true }
        0 0 [] = some r ∧
      r.status = .SLOW_CONSUMER ∧
      r.sub = { { sampleSub with slowConsumer := true } with
                slowConsumer := false } ∧
      ∀ t2 n2 ev2 r2,
        natsSubscription_NextMsg r.sub t2 n2 ev2 = some r2 →
          r2.status ≠ .SLOW_CONSUMER :=
  (nextMsg_precheck_order { sampleSub with slowConsumer := true }
      0 0 []).2.2.2.2 rfl rfl rfl rfl

/-
C3: the NextMsg wait policy.
-/

/-- C3: with timeout <= 0, NextMsg does not wait and fails with TIMEOUT
exactly when the queue is empty; with timeout > 0 it computes the
absolute deadline now + timeout exactly once (one clock consultation
when any wait happens, none otherwise) and uses it for every wait,
waits only while the queue is empty and not timed out and not closed,
and fails with INVALID_SUBSCRIPTION when the subscription is closed
after the wait. -/
theorem nextMsg_wait_policy (sub : Subscription) (timeout now : Int)
    (events : List WaitEvent)
    (hcc : sub.connClosed = false) (hcl : sub.closed = false)
    (hcb : sub.msgCb = false) (hsc : sub.slowConsumer = false) :
    (timeout ≤ 0 →
       ∃ r, natsSubscription_NextMsg sub timeout now events = some r ∧
         r.nowCalls = 0 ∧ r.waitDeadlines = [] ∧
         (r.status = .TIMEOUT ↔ sub.msgList.count = 0)) ∧
    (0 < timeout → now + timeout ≠ 0 →
       (∀ s1 st nc ts,
          nextMsgWaitLoop timeout now events 0 0 [] .OK
              { sub with inWait := sub.inWait + 1 } = some (s1, st, nc, ts) →
          ¬(s1.msgList.count = 0 ∧ st ≠ .TIMEOUT ∧ s1.closed = false)) ∧
       (∀ s1 st nc ts,
          nextMsgWaitPhase sub timeout now events = some (s1, st, nc, ts) →
          (nc ≤ 1 ∧ (∀ d ∈ ts, d = now + timeout) ∧ (ts ≠ [] → nc = 1)) ∧
          (s1.closed = true →
             st = .INVALID_SUBSCRIPTION ∧
             ∃ r, natsSubscription_NextMsg sub timeout now events = some r ∧
               r.status = .INVALID_SUBSCRIPTION))) := by
  constructor
  · intro ht
    have hnot : ¬ 0 < timeout := not_lt.mpr ht
    have hphase : nextMsgWaitPhase sub timeout now events =
        some (sub, if sub.msgList.count = 0 then .TIMEOUT else .OK, 0, []) := by
      unfold nextMsgWaitPhase
      rw [if_neg hnot]
    refine ⟨nextMsgFinish sub
        (if sub.msgList.count = 0 then .TIMEOUT else .OK) 0 [], ?_, ?_, ?_, ?_⟩
    · unfold natsSubscription_NextMsg
      rw [if_neg (by simp [hcc]), if_neg (by simp [hcl]),
        if_neg (by simp [hcb]), if_neg (by simp [hsc]), hphase]
    · exact (nextMsgPop_meta _ _ _ _ _).1
    · exact (nextMsgPop_meta _ _ _ _ _).2
    · by_cases hc : sub.msgList.count = 0
      · rw [if_pos hc, nextMsgFinish_not_ok _ _ _ _ (by simp)]
        simp [hc]
      · rw [if_neg hc]
        rcases nextMsgFinish_status sub .OK 0 [] with hf | hf <;>
          simp [hf, hc]
  · intro ht hnz
    constructor
    · intro s1 st nc ts h
      exact nextMsgWaitLoop_exit timeout now events 0 0 [] .OK _ _ _ _ _ h
    · intro s1 st nc ts hphase
      refine ⟨nextMsgWaitPhase_deadline sub timeout now events s1 st nc ts
        hnz hphase, ?_⟩
      intro hclosed1
      have hst : st = .INVALID_SUBSCRIPTION := by
        unfold nextMsgWaitPhase at hphase
        rw [if_pos ht] at hphase
        cases hloop : nextMsgWaitLoop timeout now events 0 0 [] .OK
            { sub with inWait := sub.inWait + 1 } with
        | none => rw [hloop] at hphase; exact absurd hphase (by simp)
        | some out =>
            obtain ⟨s2, st0, nc0, ts0⟩ := out
            rw [hloop] at hphase
            simp only [Option.some.injEq, Prod.mk.injEq] at hphase
            obtain ⟨h1, h2, -, -⟩ := hphase
            rw [← h1] at hclosed1
            rw [if_pos (by simpa using hclosed1)] at h2
            exact h2.symm
      subst hst
      refine ⟨rfl, nextMsgFinish s1 .INVALID_SUBSCRIPTION nc ts, ?_, ?_⟩
      · unfold natsSubscription_NextMsg
        rw [if_neg (by simp [hcc]), if_neg (by simp [hcl]),
          if_neg (by simp [hcb]), if_neg (by simp [hsc]), hphase]
      · rw [nextMsgFinish_not_ok _ _ _ _ (by simp)]

/-- Witness for C3: a no-wait call on a subscription with one queued
message does not time out and consults the clock zero times. -/
theorem nextMsg_wait_policy_witness :
    ∃ r, natsSubscription_NextMsg sampleSub 0 0 [] = some r ∧
      r.nowCalls = 0 ∧ r.waitDeadlines = [] ∧
      (r.status = .TIMEOUT ↔ sampleSub.msgList.count = 0) :=
  (nextMsg_wait_policy sampleSub 0 0 [] rfl rfl rfl rfl).1 le_rfl

/-- The accounting step on OK: delivered is incremented; the status is
MAX_DELIVERED_MSGS exactly for delivered > max (with max > 0); removal
is marked exactly for delivered == max (with max > 0). -/
theorem nextMsgAccount_ok (s1 : Subscription) (hov : s1.delivered + 1 < 2 ^ 64) :
    (nextMsgAccount s1 .OK).1 = { s1 with delivered := s1.delivered + 1 } ∧
    ((nextMsgAccount s1 .OK).2.1 = .MAX_DELIVERED_MSGS ↔
      (0 < s1.max ∧ s1.max < s1.delivered + 1)) ∧
    ((nextMsgAccount s1 .OK).2.1 = .OK ↔
      ¬(0 < s1.max ∧ s1.max < s1.delivered + 1)) ∧
    ((nextMsgAccount s1 .OK).2.2 = true ↔
      (0 < s1.max ∧ s1.delivered + 1 = s1.max)) := by
  have hd : (s1.delivered + 1) % 2 ^ 64 = s1.delivered + 1 :=
    Nat.mod_eq_of_lt hov
  by_cases h1 : 0 < s1.max
  · by_cases h2 : s1.max < s1.delivered + 1
    · have hval : nextMsgAccount s1 .OK =
          ({ s1 with delivered := s1.delivered + 1 },
            NatsStatus.MAX_DELIVERED_MSGS, false) := by
        unfold nextMsgAccount
        rw [if_pos rfl, hd, if_pos h1, if_pos h2]
      rw [hval]
      refine ⟨rfl, by simp [h1, h2], by simp [h1, h2], by simp; omega⟩
    · by_cases h3 : s1.delivered + 1 = s1.max
      · have hval : nextMsgAccount s1 .OK =
            ({ s1 with delivered := s1.delivered + 1 },
              NatsStatus.OK, true) := by
          unfold nextMsgAccount
          rw [if_pos rfl, hd, if_pos h1, if_neg h2, if_pos h3]
        rw [hval]
        refine ⟨rfl, by simp [h2], by simp [h2], by simp [h1, h3]⟩
      · have hval : nextMsgAccount s1 .OK =
            ({ s1 with delivered := s1.delivered + 1 },
              NatsStatus.OK, false) := by
          unfold nextMsgAccount
          rw [if_pos rfl, hd, if_pos h1, if_neg h2, if_neg h3]
        rw [hval]
        refine ⟨rfl, by simp [h2], by simp [h2], by simp [h3]⟩
  · have hval : nextMsgAccount s1 .OK =
        ({ s1 with delivered := s1.delivered + 1 },
          NatsStatus.OK, false) := by
      unfold nextMsgAccount
      rw [if_pos rfl, hd, if_neg h1]
    rw [hval]
    refine ⟨rfl, by simp [h1], by simp [h1], by simp [h1]⟩

/-- The pop step on OK with a well-formed non-empty queue: the head is
popped and handed out, the counter is decremented, well-formedness is
preserved, and the tail pointer is cleared exactly when the queue
empties. -/
theorem nextMsgPop_ok (s2 : Subscription) (removeSub : Bool) (nc : Nat)
    (ts : List Int) (m : Nat) (rest : List Nat)
    (hwf : s2.msgList.wellFormed) (hl : s2.msgList.list = m :: rest) :
    (nextMsgPop s2 .OK removeSub nc ts).status = .OK ∧
    (nextMsgPop s2 .OK removeSub nc ts).nextMsg = some m ∧
    (nextMsgPop s2 .OK removeSub nc ts).removeSubCalled = removeSub ∧
    (nextMsgPop s2 .OK removeSub nc ts).sub.msgList.list = rest ∧
    (nextMsgPop s2 .OK removeSub nc ts).sub.msgList.count =
      s2.msgList.count - 1 ∧
    (nextMsgPop s2 .OK removeSub nc ts).sub.msgList.wellFormed ∧
    ((nextMsgPop s2 .OK removeSub nc ts).sub.msgList.tail = none ↔
      rest = []) ∧
    (nextMsgPop s2 .OK removeSub nc ts).sub.delivered = s2.delivered := by
  have hwf2 := pop_wellFormed s2.msgList m rest hwf hl
  have hval : nextMsgPop s2 .OK removeSub nc ts =
      { sub := { s2 with msgList :=
          { list := rest,
            tail := if s2.msgList.tail = some m then none else s2.msgList.tail,
            count := s2.msgList.count - 1 } },
        status := .OK, nextMsg := some m,
        removeSubCalled := removeSub, nowCalls := nc, waitDeadlines := ts } := by
    unfold nextMsgPop
    rw [if_pos rfl]
    simp only [hl]
  rw [hval]
  refine ⟨rfl, rfl, rfl, rfl, rfl, hwf2, ?_, rfl⟩
  obtain ⟨-, ht2, -⟩ := hwf2
  have ht3 : (if s2.msgList.tail = some m then none else s2.msgList.tail)
      = rest.getLast? := ht2
  show (if s2.msgList.tail = some m then none else s2.msgList.tail) = none ↔
    rest = []
  rw [ht3]
  simp [List.getLast?_eq_none_iff]

/-
C4: the NextMsg success path.
-/

/-- C4: on a successful NextMsg wait, delivered is incremented; with
max > 0, delivered > max fails with MAX_DELIVERED_MSGS and
delivered == max marks the post-unlock removal call to the connection
(the removeSubCalled output, acted on only after the mutex is
released); on success the head message is popped (count decremented,
tail cleared exactly when the list empties) and handed to the caller. -/
theorem nextMsg_success_accounting (sub : Subscription) (timeout now : Int)
    (events : List WaitEvent) (s1 : Subscription) (nc : Nat) (ts : List Int)
    (hcc : sub.connClosed = false) (hcl : sub.closed = false)
    (hcb : sub.msgCb = false) (hsc : sub.slowConsumer = false)
    (hphase : nextMsgWaitPhase sub timeout now events = some (s1, .OK, nc, ts))
    (hwf : s1.msgList.wellFormed)
    (hov : s1.delivered + 1 < 2 ^ 64) :
    ∃ r, natsSubscription_NextMsg sub timeout now events = some r ∧
      r.sub.delivered = s1.delivered + 1 ∧
      ((0 < s1.max ∧ s1.max < s1.delivered + 1) →
         r.status = .MAX_DELIVERED_MSGS ∧ r.nextMsg = none ∧
         r.sub.msgList = s1.msgList) ∧
      (r.removeSubCalled = true ↔ (0 < s1.max ∧ s1.delivered + 1 = s1.max)) ∧
      (¬(0 < s1.max ∧ s1.max < s1.delivered + 1) →
         r.status = .OK ∧
         r.nextMsg = s1.msgList.list.head? ∧
         r.sub.msgList.list = s1.msgList.list.tail ∧
         r.sub.msgList.count = s1.msgList.count - 1 ∧
         r.sub.msgList.wellFormed ∧
         (r.sub.msgList.tail = none ↔ r.sub.msgList.list = [])) := by
  have hne : s1.msgList.count ≠ 0 :=
    (nextMsgWaitPhase_ok sub timeout now events s1 nc ts hcl hphase).1
  have heq : natsSubscription_NextMsg sub timeout now events =
      some (nextMsgFinish s1 .OK nc ts) := by
    unfold natsSubscription_NextMsg
    rw [if_neg (by simp [hcc]), if_neg (by simp [hcl]),
      if_neg (by simp [hcb]), if_neg (by simp [hsc]), hphase]
  obtain ⟨hacc1, haccMax, haccOk, haccRem⟩ := nextMsgAccount_ok s1 hov
  cases hl : s1.msgList.list with
  | nil =>
      obtain ⟨hc, -, -⟩ := hwf
      rw [hl] at hc
      simp at hc
      exact absurd hc hne
  | cons m rest =>
      by_cases hover : 0 < s1.max ∧ s1.max < s1.delivered + 1
      · have hst : (nextMsgAccount s1 .OK).2.1 = .MAX_DELIVERED_MSGS :=
          haccMax.mpr hover
        have hrem : (nextMsgAccount s1 .OK).2.2 = false := by
          cases hb : (nextMsgAccount s1 .OK).2.2 with
          | false => rfl
          | true =>
              have := haccRem.mp hb
              omega
        have hfin : nextMsgFinish s1 .OK nc ts =
            { sub := { s1 with delivered := s1.delivered + 1 },
              status := .MAX_DELIVERED_MSGS, nextMsg := none,
              removeSubCalled := false, nowCalls := nc, waitDeadlines := ts } := by
          unfold nextMsgFinish
          rw [hacc1, hst, hrem]
          exact nextMsgPop_not_ok _ _ _ _ _ (by simp)
        rw [heq, hfin]
        refine ⟨_, rfl, rfl, fun _ => ⟨rfl, rfl, rfl⟩, by simp; omega, ?_⟩
        intro hcontra
        exact absurd hover hcontra
      · have hst : (nextMsgAccount s1 .OK).2.1 = .OK := haccOk.mpr hover
        have hl2 : ({ s1 with delivered := s1.delivered + 1 }
            : Subscription).msgList.list = m :: rest := hl
        have hwf2 : ({ s1 with delivered := s1.delivered + 1 }
            : Subscription).msgList.wellFormed := hwf
        have hpop := nextMsgPop_ok { s1 with delivered := s1.delivered + 1 }
          (nextMsgAccount s1 .OK).2.2 nc ts m rest hwf2 hl2
        have hfin : nextMsgFinish s1 .OK nc ts =
            nextMsgPop { s1 with delivered := s1.delivered + 1 } .OK
              (nextMsgAccount s1 .OK).2.2 nc ts := by
          unfold nextMsgFinish
          rw [hacc1, hst]
        rw [heq, hfin]
        obtain ⟨hp1, hp2, hp3, hp4, hp5, hp6, hp7, hp8⟩ := hpop
        refine ⟨_, rfl, hp8, fun hcontra => absurd hcontra hover, ?_, ?_⟩
        · rw [hp3]
          exact haccRem
        · intro h
          refine ⟨hp1, ?_, ?_, hp5, hp6, ?_⟩
          · rw [hp2]
            rfl
          · rw [hp4]
            rfl
          · rw [hp7, hp4]

/-- Witness for C4: a no-wait fetch on a concrete subscription with one
queued message pops it and returns OK. -/
theorem nextMsg_success_accounting_witness :
    ∃ r, natsSubscription_NextMsg sampleSub 0 0 [] = some r ∧
      r.sub.delivered = sampleSub.delivered + 1 ∧
      ((0 < sampleSub.max ∧ sampleSub.max < sampleSub.delivered + 1) →
         r.status = .MAX_DELIVERED_MSGS ∧ r.nextMsg = none ∧
         r.sub.msgList = sampleSub.msgList) ∧
      (r.removeSubCalled = true ↔
        (0 < sampleSub.max ∧ sampleSub.delivered + 1 = sampleSub.max)) ∧
      (¬(0 < sampleSub.max ∧ sampleSub.max < sampleSub.delivered + 1) →
         r.status = .OK ∧
         r.nextMsg = sampleSub.msgList.list.head? ∧
         r.sub.msgList.list = sampleSub.msgList.list.tail ∧
         r.sub.msgList.count = sampleSub.msgList.count - 1 ∧
         r.sub.msgList.wellFormed ∧
         (r.sub.msgList.tail = none ↔ r.sub.msgList.list = [])) :=
  nextMsg_success_accounting sampleSub 0 0 [] sampleSub 0 []
    rfl rfl rfl rfl rfl (by decide) (by decide)

/-
C10: the over-cap defensive failure is not state-neutral.
-/

/-- C10: when NextMsg's wait succeeds but max > 0 and the incremented
delivered count exceeds max, the call fails with MAX_DELIVERED_MSGS and
leaves the message queue unchanged (nothing popped or returned), yet
the delivered increment is not rolled back. -/
theorem nextMsg_over_cap_not_neutral (sub : Subscription) (timeout now : Int)
    (events : List WaitEvent) (s1 : Subscription) (nc : Nat) (ts : List Int)
    (hcc : sub.connClosed = false) (hcl : sub.closed = false)
    (hcb : sub.msgCb = false) (hsc : sub.slowConsumer = false)
    (hphase : nextMsgWaitPhase sub timeout now events = some (s1, .OK, nc, ts))
    (hmax : 0 < s1.max) (hover : s1.max < s1.delivered + 1)
    (hov : s1.delivered + 1 < 2 ^ 64) :
    ∃ r, natsSubscription_NextMsg sub timeout now events = some r ∧
      r.status = .MAX_DELIVERED_MSGS ∧
      r.nextMsg = none ∧
      r.sub.msgList = s1.msgList ∧
      r.sub.delivered = s1.delivered + 1 ∧
      r.sub.delivered ≠ s1.delivered ∧
      r.removeSubCalled = false := by
  have heq : natsSubscription_NextMsg sub timeout now events =
      some (nextMsgFinish s1 .OK nc ts) := by
    unfold natsSubscription_NextMsg
    rw [if_neg (by simp [hcc]), if_neg (by simp [hcl]),
      if_neg (by simp [hcb]), if_neg (by simp [hsc]), hphase]
  obtain ⟨hacc1, haccMax, -, haccRem⟩ := nextMsgAccount_ok s1 hov
  have hst : (nextMsgAccount s1 .OK).2.1 = .MAX_DELIVERED_MSGS :=
    haccMax.mpr ⟨hmax, hover⟩
  have hrem : (nextMsgAccount s1 .OK).2.2 = false := by
    cases hb : (nextMsgAccount s1 .OK).2.2 with
    | false => rfl
    | true =>
        have := haccRem.mp hb
        omega
  have hfin : nextMsgFinish s1 .OK nc ts =
      { sub := { s1 with delivered := s1.delivered + 1 },
        status := .MAX_DELIVERED_MSGS, nextMsg := none,
        removeSubCalled := false, nowCalls := nc, waitDeadlines := ts } := by
    unfold nextMsgFinish
    rw [hacc1, hst, hrem]
    exact nextMsgPop_not_ok _ _ _ _ _ (by simp)
  rw [heq, hfin]
  exact ⟨_, rfl, rfl, rfl, rfl, rfl, by simp, rfl⟩

/-- Witness for C10 on a subscription already past its cap: delivered 5
with max 3, one message still queued. -/
theorem nextMsg_over_cap_not_neutral_witness :
    ∃ r, natsSubscription_NextMsg { sampleSub with delivered := 5, max := 3 }
        0 0 [] = some r ∧
      r.status = .MAX_DELIVERED_MSGS ∧
      r.nextMsg = none ∧
      r.sub.msgList = ({ sampleSub with delivered := 5, max := 3 }
        : Subscription).msgList ∧
      r.sub.delivered = ({ sampleSub with delivered := 5, max := 3 }
        : Subscription).delivered + 1 ∧
      r.sub.delivered ≠ ({ sampleSub with delivered := 5, max := 3 }
        : Subscription).delivered ∧
      r.removeSubCalled = false :=
  nextMsg_over_cap_not_neutral { sampleSub with delivered := 5, max := 3 }
    0 0 [] { sampleSub with delivered := 5, max := 3 } 0 []
    rfl rfl rfl rfl rfl (by decide) (by decide) (by decide)

/-
C1: the delivery-worker iteration.
-/

/-- C1: each delivery-worker iteration pops the head message in FIFO
order and invokes the handler iff max == 0 or the incremented delivered
count is <= max; when max > 0 and delivered >= max the worker asks the
connection to remove the subscription and exits its loop; a message
popped beyond the cap is consumed without the handler being invoked. -/
theorem deliverIter_fifo_cap (sub : Subscription) (m : Nat) (rest : List Nat)
    (hclosed : sub.closed = false)
    (hlist : sub.msgList.list = m :: rest)
    (hov : sub.delivered + 1 < 2 ^ 64) :
    (natsSub_deliverIter sub).popped = some m ∧
    (natsSub_deliverIter sub).sub.msgList.list = rest ∧
    (natsSub_deliverIter sub).sub.delivered = sub.delivered + 1 ∧
    ((natsSub_deliverIter sub).handlerInvoked = true ↔
       (sub.max = 0 ∨ sub.delivered + 1 ≤ sub.max)) ∧
    ((natsSub_deliverIter sub).removeSubCalled = true ↔
       (0 < sub.max ∧ sub.max ≤ sub.delivered + 1)) ∧
    (natsSub_deliverIter sub).exitLoop = (natsSub_deliverIter sub).removeSubCalled ∧
    (0 < sub.max → sub.max < sub.delivered + 1 →
       (natsSub_deliverIter sub).handlerInvoked = false ∧
       (natsSub_deliverIter sub).sub.msgList.list = rest) := by
  have hmod : (sub.delivered + 1) % 2 ^ 64 = sub.delivered + 1 :=
    Nat.mod_eq_of_lt hov
  simp [natsSub_deliverIter, hclosed, hlist, hmod]
  omega

/-- Witness for C1 on a concrete subscription with one queued message. -/
theorem deliverIter_fifo_cap_witness :
    (natsSub_deliverIter sampleSub).popped = some 7 ∧
    (natsSub_deliverIter sampleSub).sub.msgList.list = [] ∧
    (natsSub_deliverIter sampleSub).sub.delivered = sampleSub.delivered + 1 := by
  have h := deliverIter_fifo_cap sampleSub 7 [] rfl rfl (by decide)
  exact ⟨h.1, h.2.1, h.2.2.1⟩

/-- The delivery-worker iteration preserves queue well-formedness. -/
theorem deliverIter_wellFormed (sub : Subscription)
    (hwf : sub.msgList.wellFormed) :
    (natsSub_deliverIter sub).sub.msgList.wellFormed := by
  unfold natsSub_deliverIter
  split
  · exact hwf
  · split
    · exact hwf
    · rename_i msg rest heq
      exact pop_wellFormed sub.msgList msg rest hwf heq

/-- The NextMsg pop step preserves queue well-formedness. -/
theorem nextMsgPop_wellFormed (s2 : Subscription) (st2 : NatsStatus)
    (removeSub : Bool) (nc : Nat) (ts : List Int)
    (hwf : s2.msgList.wellFormed) :
    (nextMsgPop s2 st2 removeSub nc ts).sub.msgList.wellFormed := by
  unfold nextMsgPop
  split
  · split
    · exact hwf
    · rename_i msg rest heq
      exact pop_wellFormed s2.msgList msg rest hwf heq
  · exact hwf

/-
C7: the tail/count invariant.
-/

/-- C7: the message-list invariant tail == NULL iff count == 0 holds on
well-formed queues and is preserved by every list-mutating operation of
the core: the delivery worker's pop, NextMsg's pop, and the drain
performed at destruction (which advances only head, leaving tail and
count untouched). -/
theorem msgList_tail_count_invariant (sub s2 : Subscription)
    (st2 : NatsStatus) (removeSub : Bool) (nc : Nat) (ts : List Int)
    (q : Subscription)
    (hwf : sub.msgList.wellFormed) (hwf2 : s2.msgList.wellFormed)
    (hinv : q.msgList.tailCountInv) :
    sub.msgList.tailCountInv ∧
    (natsSub_deliverIter sub).sub.msgList.wellFormed ∧
    (natsSub_deliverIter sub).sub.msgList.tailCountInv ∧
    (nextMsgPop s2 st2 removeSub nc ts).sub.msgList.wellFormed ∧
    (nextMsgPop s2 st2 removeSub nc ts).sub.msgList.tailCountInv ∧
    (freeSubscription q).msgList.tailCountInv := by
  refine ⟨wellFormed_tailCountInv _ hwf, deliverIter_wellFormed sub hwf,
    wellFormed_tailCountInv _ (deliverIter_wellFormed sub hwf),
    nextMsgPop_wellFormed s2 st2 removeSub nc ts hwf2,
    wellFormed_tailCountInv _ (nextMsgPop_wellFormed s2 st2 removeSub nc ts hwf2),
    ?_⟩
  exact hinv

/-- Witness for C7 on the sample subscription. -/
theorem msgList_tail_count_invariant_witness :
    sampleSub.msgList.tailCountInv ∧
    (natsSub_deliverIter sampleSub).sub.msgList.wellFormed ∧
    (natsSub_deliverIter sampleSub).sub.msgList.tailCountInv ∧
    (nextMsgPop sampleSub .OK false 0 []).sub.msgList.wellFormed ∧
    (nextMsgPop sampleSub .OK false 0 []).sub.msgList.tailCountInv ∧
    (freeSubscription sampleSub).msgList.tailCountInv :=
  msgList_tail_count_invariant sampleSub sampleSub .OK false 0 [] sampleSub
    (by decide) (by decide) (by decide)

/-
C8: the refcount discipline.
-/

/-- C8: the refcount starts at 1 for the creator; the signal timer (when
not noDelay) and the delivery worker (when a handler is given) are each
retained before being started; a start failure releases that reference
and the failure path frees the subscription (releasing the connection);
the worker releases its reference on loop exit and the timer's stop
callback releases its reference; destruction (draining the queue and
releasing the connection) occurs exactly when the refcount reaches 0. -/
theorem refcount_discipline (pm : Int) (subj : String) (qg : Option String)
    (cb noDelay : Bool) (sub : Subscription) :
    ((natsSub_create ⟨true, true, true, true, true, true, true⟩
        pm subj qg cb noDelay).sub.map (fun s => s.refs) =
      some (1 + (if noDelay then 0 else 1) + (if cb then 1 else 0))) ∧
    (natsSub_create ⟨true, true, true, true, true, true, true⟩
        pm subj qg cb noDelay).status = .OK ∧
    (noDelay = false →
       (natsSub_create ⟨true, true, true, true, true, false, true⟩
           pm subj qg cb noDelay).status = .NO_MEMORY ∧
       (natsSub_create ⟨true, true, true, true, true, false, true⟩
           pm subj qg cb noDelay).freed = true ∧
       (natsSub_create ⟨true, true, true, true, true, false, true⟩
           pm subj qg cb noDelay).sub = none ∧
       (natsSub_create ⟨true, true, true, true, true, false, true⟩
           pm subj qg cb noDelay).connReleased = true) ∧
    (noDelay = true → cb = true →
       (natsSub_create ⟨true, true, true, true, true, true, false⟩
           pm subj qg cb noDelay).freed = true ∧
       (natsSub_create ⟨true, true, true, true, true, true, false⟩
           pm subj qg cb noDelay).connReleased = true) ∧
    ((natsSub_release sub).freed = true ↔ sub.refs = 1) ∧
    ((natsSub_release sub).freed = true →
       ∃ f, (natsSub_release sub).freeResult = some f ∧
         f.connReleased = true ∧ f.msgList.list = []) ∧
    (∀ events s rem, deliverRun events sub = some (s, rem) →
       natsSub_deliverMsgsRun events sub =
         some { release := natsSub_release s, removeSubCalled := rem }) ∧
    signalTimerStopped sub = natsSub_release sub := by
  refine ⟨?_, ?_, ?_, ?_, ?_, ?_, ?_, rfl⟩
  · cases noDelay <;> cases cb <;> simp [natsSub_create]
  · cases noDelay <;> cases cb <;> simp [natsSub_create]
  · intro h
    subst h
    cases cb <;>
      simp [natsSub_create, natsSub_release, freeSubscription, freeMsgs]
  · intro h1 h2
    subst h1
    subst h2
    simp [natsSub_create, natsSub_release, freeSubscription, freeMsgs]
  · by_cases h : sub.refs - 1 = 0
    · simp [natsSub_release, h]
      omega
    · simp [natsSub_release, h]
      omega
  · intro hfreed
    by_cases h : sub.refs - 1 = 0
    · simp [natsSub_release, h, freeSubscription, freeMsgs_eq_nil]
    · simp [natsSub_release, h] at hfreed
  · intro events s rem h
    unfold natsSub_deliverMsgsRun
    rw [h]

/-- Witness for C8: a failed timer start frees the subscription, and
releasing the single-reference sample subscription destroys it. -/
theorem refcount_discipline_witness :
    (natsSub_create ⟨true, true, true, true, true, false, true⟩
        65536 "x" none true false).freed = true ∧
    ((natsSub_release sampleSub).freed = true ↔ sampleSub.refs = 1) := by
  have h := refcount_discipline 65536 "x" none true false sampleSub
  exact ⟨(h.2.2.1 rfl).2.1, h.2.2.2.2.1⟩

/-
C5: close.
-/

/-- C5: natsSub_close sets the terminal closed flag (and connClosed when
the close is due to connection termination), stops the signal timer when
present, and broadcasts the condition; after close the wait guard fails,
the delivery worker exits on its next iteration without invoking the
handler, and a sync fetch observes a terminal error. -/
theorem close_terminal (sub : Subscription) (b : Bool) (timeout now : Int)
    (events : List WaitEvent) :
    (natsSub_close sub b).sub.closed = true ∧
    (natsSub_close sub b).sub.connClosed = b ∧
    (natsSub_close sub b).timerStopCalled = sub.signalTimer ∧
    (natsSub_close sub b).broadcastCalled = true ∧
    ¬ deliverWaitGuard (natsSub_close sub b).sub ∧
    (natsSub_deliverIter (natsSub_close sub b).sub).exitLoop = true ∧
    (natsSub_deliverIter (natsSub_close sub b).sub).handlerInvoked = false ∧
    (∃ r, natsSubscription_NextMsg (natsSub_close sub b).sub timeout now events
        = some r ∧
      (r.status = .CONNECTION_CLOSED ∨ r.status = .MAX_DELIVERED_MSGS ∨
        r.status = .INVALID_SUBSCRIPTION) ∧
      r.status ≠ .OK ∧ r.nextMsg = none) := by
  refine ⟨rfl, rfl, rfl, rfl, ?_, ?_, ?_, ?_⟩
  · simp [deliverWaitGuard, natsSub_close]
  · simp [natsSub_deliverIter, natsSub_close]
  · simp [natsSub_deliverIter, natsSub_close]
  · cases b with
    | true => simp [natsSubscription_NextMsg, natsSub_close]
    | false =>
        by_cases hmax : 0 < sub.max ∧ sub.max ≤ sub.delivered
        · simp [natsSubscription_NextMsg, natsSub_close, hmax]
        · simp [natsSubscription_NextMsg, natsSub_close, hmax]

/-
C6: the signal timer callback.
-/

/-- C6: on a signal-timer fire, a failed non-blocking lock acquisition
increments signalFailCount and, exactly when it reaches 10, resets it
and acquires the mutex blockingly, otherwise the callback returns; with
the mutex held, an empty queue resets signalTimerInterval to 10000 and
reschedules the timer without signalling, and otherwise the condition
is broadcast exactly when inWait > 0. -/
theorem signalTimer_behavior (sub : Subscription) :
    (sub.signalFailCount + 1 ≠ 10 →
       signalMsgAvailable sub false =
         { sub := { sub with signalFailCount := sub.signalFailCount + 1 },
           returnedEarly := true, blockingLockUsed := false,
           timerResetCalled := false, broadcastCalled := false }) ∧
    (sub.signalFailCount + 1 = 10 →
       signalMsgAvailable sub false =
         signalMsgAvailableBody { sub with signalFailCount := 0 } true) ∧
    (sub.signalFailCount + 1 = 10 →
       (signalMsgAvailable sub false).sub.signalFailCount = 0 ∧
       (signalMsgAvailable sub false).blockingLockUsed = true ∧
       (signalMsgAvailable sub false).returnedEarly = false) ∧
    (sub.msgList.count = 0 →
       (signalMsgAvailable sub true).sub.signalTimerInterval = 10000 ∧
       (signalMsgAvailable sub true).timerResetCalled = true ∧
       (signalMsgAvailable sub true).broadcastCalled = false) ∧
    (sub.msgList.count ≠ 0 →
       ((signalMsgAvailable sub true).broadcastCalled = true ↔ 0 < sub.inWait) ∧
       (signalMsgAvailable sub true).timerResetCalled = false ∧
       (signalMsgAvailable sub true).sub = sub) := by
  refine ⟨?_, ?_, ?_, ?_, ?_⟩
  · intro h
    simp [signalMsgAvailable, h]
  · intro h
    simp [signalMsgAvailable, h]
  · intro h
    by_cases hc : sub.msgList.count = 0
    · simp [signalMsgAvailable, signalMsgAvailableBody, h, hc]
    · by_cases hw : 0 < sub.inWait
      · simp [signalMsgAvailable, signalMsgAvailableBody, h, hc, hw]
      · simp [signalMsgAvailable, signalMsgAvailableBody, h, hc, hw]
  · intro h
    simp [signalMsgAvailable, signalMsgAvailableBody, h]
  · intro h
    by_cases hw : 0 < sub.inWait
    · simp [signalMsgAvailable, signalMsgAvailableBody, h, hw]
    · simp [signalMsgAvailable, signalMsgAvailableBody, h, hw]

/-- Witness for C6: a failed try-lock on a fresh subscription increments
the counter and returns early; a fire with the lock held on a non-empty
queue with no waiter does not broadcast. -/
theorem signalTimer_behavior_witness :
    signalMsgAvailable sampleSub false =
      { sub := { sampleSub with signalFailCount := sampleSub.signalFailCount + 1 },
        returnedEarly := true, blockingLockUsed := false,
        timerResetCalled := false, broadcastCalled := false } ∧
    ((signalMsgAvailable sampleSub true).broadcastCalled = true ↔
      0 < sampleSub.inWait) := by
  have h := signalTimer_behavior sampleSub
  exact ⟨h.1 (by decide), (h.2.2.2.2 (by decide)).1⟩

/-
C9: NoDeliveryDelay idempotence.
-/

/-- C9: calling NoDeliveryDelay twice is equivalent to calling it once:
the first call sets noDelay and stops the signal timer, every later
call leaves the state unchanged, and both return OK. -/
theorem noDeliveryDelay_idem (sub : Subscription) (h : sub.noDelay = false) :
    (natsSubscription_NoDeliveryDelay sub).status = .OK ∧
    (natsSubscription_NoDeliveryDelay sub).sub.noDelay = true ∧
    (natsSubscription_NoDeliveryDelay sub).timerStopCalled = true ∧
    (natsSubscription_NoDeliveryDelay
        (natsSubscription_NoDeliveryDelay sub).sub).status = .OK ∧
    (natsSubscription_NoDeliveryDelay
        (natsSubscription_NoDeliveryDelay sub).sub).sub =
      (natsSubscription_NoDeliveryDelay sub).sub ∧
    (natsSubscription_NoDeliveryDelay
        (natsSubscription_NoDeliveryDelay sub).sub).timerStopCalled = false := by
  simp [natsSubscription_NoDeliveryDelay, h]

/-- Witness for C9 on a concrete subscription in batched mode. -/
theorem noDeliveryDelay_idem_witness :
    (natsSubscription_NoDeliveryDelay sampleSub).status = .OK ∧
    (natsSubscription_NoDeliveryDelay
        (natsSubscription_NoDeliveryDelay sampleSub).sub).sub =
      (natsSubscription_NoDeliveryDelay sampleSub).sub := by
  have h := noDeliveryDelay_idem sampleSub rfl
  exact ⟨h.1, h.2.2.2.2.1⟩

end CNats
